import Mathlib

/-!
# Verification of the gdeltProject frontend data layer

A shallow embedding, in Lean 4, of the data-access layer of the gdeltProject
dashboard (frontend/src/services/dataService.ts, the trend-comparison service,
and the SourceAnalysis / CountryDetail / TrendComparison page logic), together
with theorems settling the specification claims about it.

Modelling conventions:
* JavaScript `Date` values are modelled as `Int` millisecond timestamps
  (`Int`); `Date.prototype.toISOString` is modelled by the injective
  function `toISOString` (its exact string format is irrelevant to every
  property proved here, only that the serialized date is a function of the
  timestamp).
* Optional / possibly-`undefined` values are `Option`; JavaScript string
  truthiness (`""` is falsy) is made explicit where the code relies on it.
* A network fetch together with `response.ok` checking and JSON parsing is
  modelled by a `FetchOutcome` value describing what the `await fetch` /
  `await response.json()` sequence produced: a parsed payload, a non-ok HTTP
  status, a rejected fetch, or a JSON parse failure.
* The module-level caches of dataService.ts are explicit state threaded
  through `...Step` functions; JavaScript object maps become association
  lists where a newly written key is consed on the front (so `lookup` sees
  the latest write, matching property assignment).
* Floating-point tone values never participate in any claim's arithmetic,
  so numbers are modelled as `Int`.
-/

/-- Model of `Date.prototype.toISOString`: an injective serialization of the
timestamp.  The concrete format does not matter for any claim. -/
def toISOString (d : Int) : String := "1970-01-01T00:00:00." ++ toString d ++ "Z"

/-- Model of `new Date(string)`: some function of the string back to a
timestamp (its value is irrelevant to every claim). -/
def parseInt (s : String) : Int := (s.length : Int)

/-- Outcome of a `fetch` + `response.ok` check + `response.json()` sequence:
either a parsed payload of type `α`, or one of the three error shapes the
services distinguish (non-ok HTTP response, rejected fetch, JSON parse
failure). -/
inductive FetchOutcome (α : Type) where
  | success (data : α)
  | httpError (status : Nat)
  | networkError
  | parseError
deriving Repr, DecidableEq

/-- An outcome on which the `try` block of a service function throws
(`!response.ok`, a rejected fetch, or a failed JSON parse). -/
def FetchOutcome.isError : FetchOutcome α → Bool
  | .success _ => false
  | _ => true

/-- `CountryData` from dataService.ts (id is the ISO3 code). -/
structure CountryData where
  id : String
  name : String
  value : Int
  iso2 : String
  code : String
  averageTone : Int
deriving Repr, DecidableEq

/-- `ContinentData` from dataService.ts. -/
structure ContinentData where
  name : String
  totalArticles : Int
  countries : List CountryData
deriving Repr, DecidableEq

/-- `GlobalStats` from dataService.ts. -/
structure GlobalStats where
  totalArticles : Int
  topCountries : List CountryData
  continents : List ContinentData
  averagePerCountry : Int
deriving Repr, DecidableEq

/-- A raw timeline entry as it arrives from the time-stats endpoint, before
CountryDetail's processing: the date may be missing or empty (modelled as
`""`), and `count` / `tone` may be missing or not numbers (modelled as
`none`). -/
structure RawTimelineItem where
  date : String
  count : Option Int
  tone : Option Int
deriving Repr, DecidableEq

/-- An article of `CountryTimeStats.articles` in dataService.ts. -/
structure TimeArticle where
  title : String
  date : String
  source : String
  url : String
deriving Repr, DecidableEq

/-- `CountryTimeStats` from dataService.ts (timeline entries kept in raw form
so that the CountryDetail in-place processing is expressible on the same
type, as it is in JavaScript). -/
structure CountryTimeStats where
  articleCount : Int
  averageTone : Int
  timelineData : List RawTimelineItem
  articles : List TimeArticle
deriving Repr, DecidableEq

/-- An entry of `recentArticles` in `GroupedSourceData`. -/
structure RecentArticle where
  title : String
  url : String
  date : String
  tone : Int
deriving Repr, DecidableEq

/-- `GroupedSourceData` from dataService.ts. -/
structure GroupedSourceData where
  name : String
  source : Option String
  articleCount : Int
  averageTone : Int
  lastArticleDate : String
  recentArticles : List RecentArticle
deriving Repr, DecidableEq

/-- `SourceAnalysisData` from dataService.ts (fields that the SourceAnalysis
page reads; `source`, `pageAuthors` and `country` can be absent). -/
structure SourceAnalysisData where
  source : Option String
  pageAuthors : Option String
  country : Option String
  articleCount : Int
  averageTone : Int
  lastArticleDate : String
  recentArticles : List RecentArticle
deriving Repr, DecidableEq

/-- `SourceAnalysisFilters` from dataService.ts. -/
structure SourceAnalysisFilters where
  startDate : Option Int
  endDate : Option Int
  country : Option String
  author : Option String
deriving Repr, DecidableEq

/-- The JSON body POSTed by `getSourceAnalysis` (a field that is `none`
corresponds to a property that `JSON.stringify` omits because its value is
`undefined`). -/
structure AnalysisBody where
  startDate : Option String
  endDate : Option String
  country : Option String
  author : Option String
deriving Repr, DecidableEq

/-- `DailyAverageData` from dataService.ts. -/
structure DailyAverageData where
  country : String
  name : String
  averageArticles : Int
  totalDays : Int
deriving Repr, DecidableEq

/-- `DailyAverageResponse` from dataService.ts. -/
structure DailyAverageResponse where
  highest : List DailyAverageData
  lowest : List DailyAverageData
deriving Repr, DecidableEq

/-- One timeframe's daily entry in the trend-comparison service. -/
structure TrendDailyData where
  date : String
  articleCount : Int
  averageTone : Int
deriving Repr, DecidableEq

/-- `TimeFrameData` from the trend-comparison service (dates already
converted back with `new Date(...)`). -/
structure TimeFrameData where
  startDate : Int
  endDate : Int
  articleCount : Int
  dailyData : List TrendDailyData
deriving Repr, DecidableEq

/-- One timeframe as it appears in the JSON reply of
`/api/v1/articles/compare-trends`, dates still strings. -/
structure RawTimeFrame where
  startDate : String
  endDate : String
  articleCount : Int
  dailyData : List TrendDailyData
deriving Repr, DecidableEq

/-- The raw JSON payload of `/api/v1/articles/global-stats`. -/
structure RawGlobalStats where
  totalArticles : Int
  countries : List CountryData
  averagePerCountry : Int
deriving Repr, DecidableEq

/-- Model of `String.prototype.toLowerCase` (the strings the code lowercases
are ASCII country names, where JavaScript and ASCII lowercasing agree):
character-wise `Char.toLower` over the underlying character list. -/
def jsToLower (s : String) : String := String.mk (s.data.map Char.toLower)

/-- JavaScript `a || b` on an optional string `a`: the default is used both
when `a` is absent and when it is the empty string (falsy). -/
def jsOrString (a : Option String) (b : String) : String :=
  match a with
  | some s => if s = "" then b else s
  | none => b

/-- JavaScript `a || b` on two optional strings, with string truthiness. -/
def jsOrOption (a b : Option String) : Option String :=
  match a with
  | some s => if s = "" then b else some s
  | none => b

/-- The `countryNames` table of dataService.ts (ISO2 code, display name);
30 entries. -/
def countryNames : List (String × String) :=
  [("US", "United States"), ("UK", "United Kingdom"), ("FR", "France"),
   ("DE", "Germany"), ("RU", "Russia"), ("IL", "Israel"),
   ("SA", "Saudi Arabia"), ("EG", "Egypt"), ("IR", "Iran"), ("CN", "China"),
   ("JP", "Japan"), ("AU", "Australia"), ("BR", "Brazil"), ("CA", "Canada"),
   ("IN", "India"), ("ZA", "South Africa"), ("SE", "Sweden"), ("ES", "Spain"),
   ("IT", "Italy"), ("AR", "Argentina"), ("MX", "Mexico"), ("NO", "Norway"),
   ("FI", "Finland"), ("DK", "Denmark"), ("NL", "Netherlands"),
   ("BE", "Belgium"), ("PL", "Poland"), ("UA", "Ukraine"), ("TR", "Turkey"),
   ("GR", "Greece")]

/-- The `countryNameToCode` reverse mapping of dataService.ts: lowercased
display name to ISO2 code, built from `countryNames`. -/
def countryNameToCode : List (String × String) :=
  countryNames.map (fun p => (jsToLower p.2, p.1))

/-- The `countryContinents` table of dataService.ts (ISO2 code to continent
name), in source order. -/
def countryContinents : List (String × String) :=
  [("US", "North America"), ("CA", "North America"), ("MX", "North America"),
   ("BM", "North America"), ("BS", "North America"), ("BB", "North America"),
   ("BZ", "North America"), ("CR", "North America"), ("CU", "North America"),
   ("DM", "North America"), ("DO", "North America"), ("SV", "North America"),
   ("GD", "North America"), ("GT", "North America"), ("HT", "North America"),
   ("HN", "North America"), ("JM", "North America"), ("NI", "North America"),
   ("PA", "North America"), ("KN", "North America"), ("LC", "North America"),
   ("VC", "North America"), ("TT", "North America"),
   ("AR", "South America"), ("BR", "South America"), ("BO", "South America"),
   ("CL", "South America"), ("CO", "South America"), ("EC", "South America"),
   ("GY", "South America"), ("PY", "South America"), ("PE", "South America"),
   ("SR", "South America"), ("UY", "South America"), ("VE", "South America"),
   ("UK", "Europe"), ("FR", "Europe"), ("DE", "Europe"), ("RU", "Europe"),
   ("SE", "Europe"), ("ES", "Europe"), ("IT", "Europe"), ("NO", "Europe"),
   ("FI", "Europe"), ("DK", "Europe"), ("NL", "Europe"), ("BE", "Europe"),
   ("PL", "Europe"), ("UA", "Europe"), ("GR", "Europe"), ("AL", "Europe"),
   ("AD", "Europe"), ("AT", "Europe"), ("BY", "Europe"), ("BA", "Europe"),
   ("BG", "Europe"), ("HR", "Europe"), ("CY", "Europe"), ("CZ", "Europe"),
   ("EE", "Europe"), ("HU", "Europe"), ("IS", "Europe"), ("IE", "Europe"),
   ("LV", "Europe"), ("LI", "Europe"), ("LT", "Europe"), ("LU", "Europe"),
   ("MT", "Europe"), ("MD", "Europe"), ("MC", "Europe"), ("ME", "Europe"),
   ("MK", "Europe"), ("PT", "Europe"), ("RO", "Europe"), ("RS", "Europe"),
   ("SK", "Europe"), ("SI", "Europe"), ("CH", "Europe"), ("VA", "Europe"),
   ("IL", "Asia"), ("SA", "Asia"), ("IR", "Asia"), ("CN", "Asia"),
   ("JP", "Asia"), ("IN", "Asia"), ("TR", "Asia"), ("AF", "Asia"),
   ("AM", "Asia"), ("AZ", "Asia"), ("BH", "Asia"), ("BD", "Asia"),
   ("BN", "Asia"), ("KH", "Asia"), ("GE", "Asia"), ("ID", "Asia"),
   ("IQ", "Asia"), ("JO", "Asia"), ("KZ", "Asia"), ("KW", "Asia"),
   ("KG", "Asia"), ("LA", "Asia"), ("LB", "Asia"), ("MY", "Asia"),
   ("MV", "Asia"), ("MN", "Asia"), ("MM", "Asia"), ("NP", "Asia"),
   ("OM", "Asia"), ("PK", "Asia"), ("PH", "Asia"), ("QA", "Asia"),
   ("SG", "Asia"), ("KR", "Asia"), ("LK", "Asia"), ("SY", "Asia"),
   ("TW", "Asia"), ("TJ", "Asia"), ("TH", "Asia"), ("TM", "Asia"),
   ("AE", "Asia"), ("UZ", "Asia"), ("VN", "Asia"), ("YE", "Asia"),
   ("EG", "Africa"), ("ZA", "Africa"), ("DZ", "Africa"), ("AO", "Africa"),
   ("BJ", "Africa"), ("BW", "Africa"), ("BF", "Africa"), ("BI", "Africa"),
   ("CM", "Africa"), ("CV", "Africa"), ("CF", "Africa"), ("TD", "Africa"),
   ("KM", "Africa"), ("CG", "Africa"), ("CD", "Africa"), ("DJ", "Africa"),
   ("GQ", "Africa"), ("ER", "Africa"), ("ET", "Africa"), ("GA", "Africa"),
   ("GM", "Africa"), ("GH", "Africa"), ("GN", "Africa"), ("GW", "Africa"),
   ("KE", "Africa"), ("LS", "Africa"), ("LR", "Africa"), ("LY", "Africa"),
   ("MG", "Africa"), ("MW", "Africa"), ("ML", "Africa"), ("MR", "Africa"),
   ("MU", "Africa"), ("MA", "Africa"), ("MZ", "Africa"), ("NA", "Africa"),
   ("NE", "Africa"), ("NG", "Africa"), ("RW", "Africa"), ("ST", "Africa"),
   ("SN", "Africa"), ("SC", "Africa"), ("SL", "Africa"), ("SO", "Africa"),
   ("SS", "Africa"), ("SD", "Africa"), ("SZ", "Africa"), ("TZ", "Africa"),
   ("TG", "Africa"), ("TN", "Africa"), ("UG", "Africa"), ("EH", "Africa"),
   ("ZM", "Africa"), ("ZW", "Africa"),
   ("AU", "Oceania"), ("FJ", "Oceania"), ("KI", "Oceania"), ("MH", "Oceania"),
   ("FM", "Oceania"), ("NR", "Oceania"), ("NZ", "Oceania"), ("PW", "Oceania"),
   ("PG", "Oceania"), ("WS", "Oceania"), ("SB", "Oceania"), ("TO", "Oceania"),
   ("TV", "Oceania"), ("VU", "Oceania")]

/-- The 30-entry `countryContinents` table of the second (legacy) dataService
variant, keyed on `iso2` by `getDataByContinent`. -/
def countryContinentsLegacy : List (String × String) :=
  [("US", "North America"), ("GB", "Europe"), ("FR", "Europe"),
   ("DE", "Europe"), ("RU", "Europe"), ("IL", "Asia"), ("SA", "Asia"),
   ("EG", "Africa"), ("IR", "Asia"), ("CN", "Asia"), ("JP", "Asia"),
   ("AU", "Oceania"), ("BR", "South America"), ("CA", "North America"),
   ("IN", "Asia"), ("ZA", "Africa"), ("SE", "Europe"), ("ES", "Europe"),
   ("IT", "Europe"), ("AR", "South America"), ("MX", "North America"),
   ("NO", "Europe"), ("FI", "Europe"), ("DK", "Europe"), ("NL", "Europe"),
   ("BE", "Europe"), ("PL", "Europe"), ("UA", "Europe"), ("TR", "Asia"),
   ("GR", "Europe")]

/-- One iteration of the continent-grouping loop shared by `getGlobalStats`
and `getDataByContinent`: if no group named `n` exists yet, a fresh group is
appended (a JavaScript `Map` preserves insertion order); then the country is
pushed onto that group's `countries` and its `value` added to
`totalArticles`. -/
def addToContinent (n : String) (c : CountryData) :
    List ContinentData → List ContinentData
  | [] => [⟨n, c.value, [c]⟩]
  | g :: gs =>
    if g.name = n then
      ⟨g.name, g.totalArticles + c.value, g.countries ++ [c]⟩ :: gs
    else
      g :: addToContinent n c gs

/-- The continent-grouping loop: fold the countries left to right through
`addToContinent`, starting from an empty map, the continent of a country
given by `key`. -/
def groupByContinent (key : CountryData → String)
    (cs : List CountryData) : List ContinentData :=
  cs.foldl (fun acc c => addToContinent (key c) c acc) []

/-- The continent key used by `getGlobalStats` in dataService.ts:
`countryContinents[country.code] || "Unknown"` (every table value is a
non-empty string, so `||` is just the absent-key default). -/
def continentOfCode (c : CountryData) : String :=
  (countryContinents.lookup c.code).getD "Unknown"

/-- The continent key used by `getDataByContinent` in the legacy dataService
variant: `countryContinents[country.iso2] || "Unknown"`. -/
def continentOfIso2 (c : CountryData) : String :=
  (countryContinentsLegacy.lookup c.iso2).getD "Unknown"

/-- The continent grouping performed inside `getGlobalStats`
(dataService.ts lines 395-413) on its `topCountries` list. -/
def getGlobalStatsContinents (countries : List CountryData) :
    List ContinentData :=
  groupByContinent continentOfCode countries

/-- The grouping performed by `getDataByContinent` in the legacy dataService
variant. -/
def getDataByContinentGroups (countries : List CountryData) :
    List ContinentData :=
  groupByContinent continentOfIso2 countries

/-- The all-zero `GlobalStats` returned by `getGlobalStats` on any error. -/
def zeroGlobalStats : GlobalStats := ⟨0, [], [], 0⟩

/-- The empty `CountryTimeStats` returned by `getCountryTimeStats` on any
error (and used by CountryDetail as its empty-stats fallback). -/
def zeroCountryTimeStats : CountryTimeStats := ⟨0, 0, [], []⟩

/-- The empty `DailyAverageResponse` returned by `getDailyAverages` on any
error. -/
def zeroDailyAverageResponse : DailyAverageResponse := ⟨[], []⟩

/-- The transformation `getGlobalStats` applies to a parsed global-stats
payload: each country is spread with `id` and `iso2` set to its `code`, and
the continents are grouped from the resulting `topCountries`. -/
def buildGlobalStats (d : RawGlobalStats) : GlobalStats :=
  let tops := d.countries.map (fun c => { c with id := c.code, iso2 := c.code })
  { totalArticles := d.totalArticles
    topCountries := tops
    continents := getGlobalStatsContinents tops
    averagePerCountry := d.averagePerCountry }

/-- `CACHE_DURATION` and `COUNTRY_CACHE_DURATION` of dataService.ts:
5 minutes in milliseconds. -/
def cacheDurationMs : Int := 5 * 60 * 1000

/-- The module-level cache of `getGlobalStats`: `cachedGlobalStats` and
`lastFetchTime`. -/
structure GlobalStatsCacheState where
  cachedGlobalStats : Option GlobalStats
  lastFetchTime : Option Int
deriving Repr, DecidableEq

/-- The guard of `getGlobalStats`:
`cachedGlobalStats && lastFetchTime && (Date.now() - lastFetchTime < CACHE_DURATION)`.
Note `lastFetchTime` is tested for truthiness, so a (never occurring in
practice) stored time of `0` would also count as no cache. -/
def globalCacheValid (st : GlobalStatsCacheState) (now : Int) : Bool :=
  match st.cachedGlobalStats, st.lastFetchTime with
  | some _, some t => t ≠ 0 && now - t < cacheDurationMs
  | _, _ => false

/-- One call of `getGlobalStats`, as a function of the cache state, the
current time and the outcome the fetch would produce; returns the value
given to the caller and the new cache state. -/
def getGlobalStatsStep (st : GlobalStatsCacheState) (now : Int)
    (r : FetchOutcome RawGlobalStats) : GlobalStats × GlobalStatsCacheState :=
  if globalCacheValid st now then
    (st.cachedGlobalStats.getD zeroGlobalStats, st)
  else
    match r with
    | .success d =>
      let gs := buildGlobalStats d
      (gs, ⟨some gs, some now⟩)
    | _ => (zeroGlobalStats, st)

/-- One call of `getCountryData` (dataService.ts lines 432-454): the
`countryCache` holds plain `CountryData` entries with no timestamp, and an
entry present in the cache is returned on every later call; the current time
is never consulted (the `now` argument is unused, faithfully to the code). -/
def getCountryDataStep (cache : List (String × CountryData)) (iso2 : String)
    (_now : Int) (r : FetchOutcome CountryData) :
    Option CountryData × List (String × CountryData) :=
  match cache.lookup iso2 with
  | some d => (some d, cache)
  | none =>
    match r with
    | .success d => (some d, (iso2, d) :: cache)
    | .httpError status =>
      -- a 404 returns `undefined` directly; any other non-ok status throws,
      -- is caught, and also yields `undefined`; neither writes the cache
      if status = 404 then (none, cache) else (none, cache)
    | _ => (none, cache)

/-- The cache key of `getCountryTimeStats`:
`iso2-(startDate?.toISOString() || '')-(endDate?.toISOString() || '')`. -/
def countryTimeStatsKey (iso2 : String) (s e : Option Int) : String :=
  iso2 ++ "-" ++ (s.elim "" toISOString) ++ "-" ++ (e.elim "" toISOString)

/-- The `countryTimeStatsCache`: key to (data, timestamp). -/
abbrev TimeStatsCache := List (String × (CountryTimeStats × Int))

/-- One call of `getCountryTimeStats` (dataService.ts lines 456-498): a
cached entry strictly younger than 5 minutes is returned as is; otherwise
the fetch outcome decides the result, and only a success is stored (keyed by
iso2 and the two optional dates). -/
def getCountryTimeStatsStep (cache : TimeStatsCache) (iso2 : String)
    (s e : Option Int) (now : Int) (r : FetchOutcome CountryTimeStats) :
    CountryTimeStats × TimeStatsCache :=
  let key := countryTimeStatsKey iso2 s e
  match cache.lookup key with
  | some (d, ts) =>
    if now - ts < cacheDurationMs then (d, cache)
    else
      match r with
      | .success fresh => (fresh, (key, (fresh, now)) :: cache)
      | _ => (zeroCountryTimeStats, cache)
  | none =>
    match r with
    | .success fresh => (fresh, (key, (fresh, now)) :: cache)
    | _ => (zeroCountryTimeStats, cache)

/-- One call of `getTopCountries`: `cachedTopCountries` has no timestamp
(an empty cached array is still truthy in JavaScript, hence still a hit);
the current time is never consulted. -/
def getTopCountriesStep (cache : Option (List CountryData)) (_now : Int)
    (r : FetchOutcome (List CountryData)) :
    List CountryData × Option (List CountryData) :=
  match cache with
  | some l => (l, cache)
  | none =>
    match r with
    | .success d => (d, some d)
    | _ => ([], none)

/-- The result `getGroupedSources` hands its caller for a given fetch
outcome (the query-string construction is `groupedSourcesParams`). -/
def getGroupedSourcesRun (r : FetchOutcome (List GroupedSourceData)) :
    List GroupedSourceData :=
  match r with
  | .success groups => groups
  | _ => []

/-- The result `getSourceAnalysis` hands its caller: `data.sources || []`
on success (so an absent `sources` array also yields `[]`), `[]` on any
error. -/
def getSourceAnalysisRun (r : FetchOutcome (Option (List SourceAnalysisData))) :
    List SourceAnalysisData :=
  match r with
  | .success sources => sources.getD []
  | _ => []

/-- The result `getDailyAverages` hands its caller. -/
def getDailyAveragesRun (r : FetchOutcome DailyAverageResponse) :
    DailyAverageResponse :=
  match r with
  | .success d => d
  | _ => zeroDailyAverageResponse

/-- The transformation `timeFrameComparison` applies to one timeframe of the
comparison payload: `new Date(...)` on the two boundary strings. -/
def toTimeFrameData (raw : RawTimeFrame) : TimeFrameData :=
  { startDate := parseInt raw.startDate
    endDate := parseInt raw.endDate
    articleCount := raw.articleCount
    dailyData := raw.dailyData }

/-- The result `timeFrameComparison` (trendComparison.ts) hands its caller:
unlike every dataService function, its `catch` block ends in `throw error`,
so an error outcome is re-raised to the caller; this is modelled as
`Except.error`. -/
def timeFrameComparisonRun (r : FetchOutcome (RawTimeFrame × RawTimeFrame)) :
    Except Unit (TimeFrameData × TimeFrameData) :=
  match r with
  | .success (tf1, tf2) => Except.ok (toTimeFrameData tf1, toTimeFrameData tf2)
  | _ => Except.error ()

/-- The `URLSearchParams` built by `getCountryTimeStats`: an object spread
adds `start_date` exactly when a start date was passed and `end_date`
exactly when an end date was passed, each serialized with `toISOString`. -/
def countryTimeStatsParams (s e : Option Int) : List (String × String) :=
  (match s with
   | some d => [("start_date", toISOString d)]
   | none => []) ++
  (match e with
   | some d => [("end_date", toISOString d)]
   | none => [])

/-- The `URLSearchParams` built by `getGroupedSources`: `group_by` always,
then the two optional dates as in `countryTimeStatsParams`. -/
def groupedSourcesParams (groupBy : String) (s e : Option Int) :
    List (String × String) :=
  ("group_by", groupBy) :: countryTimeStatsParams s e

/-- The request body built by `getSourceAnalysis` (dataService.ts lines
531-550): a truthy country filter whose lowercasing is a key of
`countryNameToCode` is replaced by the mapped ISO2 code (every code is a
non-empty string, so the truthiness test on the looked-up value is just
presence); everything else is passed through, dates via `toISOString`. -/
def getSourceAnalysisBody (f : SourceAnalysisFilters) : AnalysisBody :=
  let countryFilter : Option String :=
    match f.country with
    | none => none
    | some c =>
      if c = "" then some c
      else
        match countryNameToCode.lookup (jsToLower c) with
        | some code => some code
        | none => some c
  { startDate := f.startDate.map toISOString
    endDate := f.endDate.map toISOString
    country := countryFilter
    author := f.author }

/-- `validateDates` of CountryDetail (part_001 lines 92-115): clears the
error, then rejects start after end (when both are present), then a future
start, then a future end; otherwise accepts.  Returns the boolean result
together with the `dateError` it leaves set. -/
def validateDates (s e : Option Int) (now : Int) : Bool × Option String :=
  if s.any (fun a => e.any (fun b => decide (a > b))) then
    (false, some "Start date must be before end date")
  else if s.any (fun a => decide (a > now)) then
    (false, some "Start date cannot be in the future")
  else if e.any (fun b => decide (b > now)) then
    (false, some "End date cannot be in the future")
  else (true, none)

/-- The client-side validation of `handleCompare` (TrendComparison.tsx lines
42-55); it only runs when all four dates are present, and the fetch is
issued exactly when it passes. -/
def handleCompareValid (t1s t1e t2s t2e now : Int) : Bool × Option String :=
  if t1s > t1e || t2s > t2e then
    (false, some "Start date must be before end date")
  else if t1s > now || t1e > now || t2s > now || t2e > now then
    (false, some "Dates cannot be in the future")
  else (true, none)

/-- The date validation at the top of `fetchSources` in SourceAnalysis
(part_000 lines 88-99); the function returns early (no fetch) exactly when
it fails. -/
def fetchSourcesDatesValid (s e : Option Int) (now : Int) :
    Bool × Option String :=
  if s.any (fun a => e.any (fun b => decide (a > b))) then
    (false, some "Start date must be before end date")
  else if s.any (fun a => decide (a > now)) || e.any (fun b => decide (b > now)) then
    (false, some "Dates cannot be in the future")
  else (true, none)

/-- `ITEMS_PER_PAGE` of the SourceAnalysis page. -/
def itemsPerPage : Nat := 8

/-- `ARTICLES_PER_PAGE` of the CountryDetail page. -/
def articlesPerPage : Nat := 3

/-- `totalPages` of SourceAnalysis: `Math.ceil(totalItems / ITEMS_PER_PAGE)`
as natural-number ceiling division. -/
def sourceTotalPages (xs : List GroupedSourceData) : Nat :=
  (xs.length + itemsPerPage - 1) / itemsPerPage

/-- `currentItems` of SourceAnalysis:
`displayedSources.slice((p-1)*N, (p-1)*N + N)`. -/
def sourceCurrentItems (xs : List GroupedSourceData) (p : Nat) :
    List GroupedSourceData :=
  (xs.drop ((p - 1) * itemsPerPage)).take itemsPerPage

/-- `getTotalPages` of CountryDetail:
`Math.ceil(articles.length / ARTICLES_PER_PAGE)`. -/
def articleTotalPages (ys : List TimeArticle) : Nat :=
  (ys.length + articlesPerPage - 1) / articlesPerPage

/-- `getCurrentArticles` of CountryDetail:
`articles.slice((p-1)*N, (p-1)*N + N)`. -/
def getCurrentArticles (ys : List TimeArticle) (p : Nat) : List TimeArticle :=
  (ys.drop ((p - 1) * articlesPerPage)).take articlesPerPage

/-- The `uniqueArticles`-map filter used by SourceAnalysis and CountryDetail:
keep an element exactly when its key has not been seen yet (in `seen` or
earlier in the list), threading the seen-set so it can continue across
several lists.  Returns the kept elements and the final seen-set. -/
def dedupWithSeen (key : α → String) :
    List String → List α → List α × List String
  | seen, [] => ([], seen)
  | seen, a :: as =>
    if key a ∈ seen then dedupWithSeen key seen as
    else
      let r := dedupWithSeen key (key a :: seen) as
      (a :: r.1, r.2)

/-- The kept elements of `dedupWithSeen`: the `filter` with a fresh (or
given) `uniqueArticles` map. -/
def dedupByFirst (key : α → String) (seen : List String) (l : List α) :
    List α :=
  (dedupWithSeen key seen l).1

/-- The body of the timeline `.map` in CountryDetail's `fetchData` (part_001
lines 195-207): an item with a falsy date or a non-number count becomes
`null`; otherwise `count` is kept (`Number` of a number) and `tone` becomes
`item.tone || 0`. -/
def processTimelineItem (i : RawTimelineItem) : Option RawTimelineItem :=
  if i.date = "" then none
  else
    match i.count with
    | none => none
    | some k => some ⟨i.date, some k, some (i.tone.getD 0)⟩

/-- The timeline processing of CountryDetail's `fetchData`: only performed
when the list is non-empty (an empty list is left alone, with the same
result), `.map` to item-or-null then `.filter` out the nulls. -/
def processTimeline (l : List RawTimelineItem) : List RawTimelineItem :=
  if l.isEmpty then l else l.filterMap processTimelineItem

/-- The full in-place processing CountryDetail's `fetchData` applies to the
`CountryTimeStats` object returned by `getCountryTimeStats` (part_001 lines
191-222): reassign `timelineData` to the coerced-and-filtered list and
`articles` to the title-deduplicated list. -/
def processCountryTimeStats (s : CountryTimeStats) : CountryTimeStats :=
  { s with
    timelineData := processTimeline s.timelineData
    articles := dedupByFirst (fun a => a.title) [] s.articles }

/-- The fetch branch of `fetchDataStep`: on success the fetched object is
stored in the cache and then processed; because the cache stores a
*reference* to the very object `getCountryTimeStats` returned, the
reassignments of `fetchData` are visible in the cache, so the stored entry
is the processed object.  On error `getCountryTimeStats` returns (without
caching) the zero stats, which `fetchData` still processes. -/
def fetchDataFetchPath (cache : TimeStatsCache) (key : String) (now : Int)
    (r : FetchOutcome CountryTimeStats) : CountryTimeStats × TimeStatsCache :=
  match r with
  | .success fresh =>
    (processCountryTimeStats fresh,
     (key, (processCountryTimeStats fresh, now)) :: cache)
  | _ => (processCountryTimeStats zeroCountryTimeStats, cache)

/-- One call of CountryDetail's `fetchData` restricted to its time-stats
part: `getCountryTimeStats` followed by the in-place processing of the
returned object.  On a cache hit the returned object *is* the cached entry,
so the processing mutates the cache as well (modelled by overwriting the key
with the processed data, timestamp unchanged). -/
def fetchDataStep (cache : TimeStatsCache) (iso2 : String)
    (s e : Option Int) (now : Int) (r : FetchOutcome CountryTimeStats) :
    CountryTimeStats × TimeStatsCache :=
  let key := countryTimeStatsKey iso2 s e
  match cache.lookup key with
  | some (d, ts) =>
    if now - ts < cacheDurationMs then
      (processCountryTimeStats d,
       (key, (processCountryTimeStats d, ts)) :: cache)
    else fetchDataFetchPath cache key now r
  | none => fetchDataFetchPath cache key now r

/-- The grouped-sources branch of SourceAnalysis's `fetchSources` (part_000
lines 148-167): `.map` over the groups, filtering each group's
`recentArticles` through the one `uniqueArticles` map shared by the whole
response. -/
def dedupGroupsAux (seen : List String) :
    List GroupedSourceData → List GroupedSourceData
  | [] => []
  | g :: gs =>
    let r := dedupWithSeen (fun a => a.title) seen g.recentArticles
    { g with recentArticles := r.1 } :: dedupGroupsAux r.2 gs

/-- `processedData` of `fetchSources`: the dedup pass starting from a fresh
`uniqueArticles` map. -/
def fetchSourcesProcessedData (gs : List GroupedSourceData) :
    List GroupedSourceData :=
  dedupGroupsAux [] gs

/-- The `filterType` of SourceAnalysis. -/
inductive FilterType where
  | author
  | country
deriving Repr, DecidableEq

/-- The per-item conversion of the source-analysis branch of `fetchSources`
(part_000 lines 130-137), given the already-deduplicated articles:
`name` is `item.source || "Unknown"` under author grouping and
`item.country || "Unknown"` under country grouping, and `source` is
`item.source || item.pageAuthors`. -/
def convertAnalysisItem (ft : FilterType) (item : SourceAnalysisData)
    (arts : List RecentArticle) : GroupedSourceData :=
  { name :=
      match ft with
      | .author => jsOrString item.source "Unknown"
      | .country => jsOrString item.country "Unknown"
    source := jsOrOption item.source item.pageAuthors
    articleCount := item.articleCount
    averageTone := item.averageTone
    lastArticleDate := item.lastArticleDate
    recentArticles := arts }

/-- The source-analysis branch of `fetchSources` (part_000 lines 118-142):
convert each item, filtering its `recentArticles` through the one
`uniqueArticles` map shared by the whole response. -/
def convertAnalysisAux (ft : FilterType) (seen : List String) :
    List SourceAnalysisData → List GroupedSourceData
  | [] => []
  | item :: rest =>
    let r := dedupWithSeen (fun a => a.title) seen item.recentArticles
    convertAnalysisItem ft item r.1 :: convertAnalysisAux ft r.2 rest

/-- `convertedData` of `fetchSources`: the conversion-and-dedup pass starting
from a fresh `uniqueArticles` map. -/
def fetchSourcesConvertedData (ft : FilterType)
    (data : List SourceAnalysisData) : List GroupedSourceData :=
  convertAnalysisAux ft [] data

/-- C3: date-range validation succeeds, and the fetch proceeds, exactly when
start ≤ end whenever both dates are present and no present date is after the
current time; otherwise the error message is set.  Shown for all three
validators: `validateDates` of CountryDetail, the `handleCompare` validation
of TrendComparison (which runs only with all four dates present), and the
`fetchSources` validation of SourceAnalysis.  Equal start and end dates are
accepted (see the witness). -/
theorem dateRangeValidationCorrect :
    ∀ (s e : Option Int) (now t1s t1e t2s t2e : Int),
      ((validateDates s e now).1 = true ↔
        (∀ a ∈ s, ∀ b ∈ e, a ≤ b) ∧ (∀ a ∈ s, a ≤ now) ∧ (∀ b ∈ e, b ≤ now)) ∧
      ((validateDates s e now).2 = none ↔ (validateDates s e now).1 = true) ∧
      ((handleCompareValid t1s t1e t2s t2e now).1 = true ↔
        t1s ≤ t1e ∧ t2s ≤ t2e ∧ t1s ≤ now ∧ t1e ≤ now ∧ t2s ≤ now ∧ t2e ≤ now) ∧
      ((handleCompareValid t1s t1e t2s t2e now).2 = none ↔
        (handleCompareValid t1s t1e t2s t2e now).1 = true) ∧
      ((fetchSourcesDatesValid s e now).1 = true ↔
        (∀ a ∈ s, ∀ b ∈ e, a ≤ b) ∧ (∀ a ∈ s, a ≤ now) ∧ (∀ b ∈ e, b ≤ now)) ∧
      ((fetchSourcesDatesValid s e now).2 = none ↔
        (fetchSourcesDatesValid s e now).1 = true) := by
  intro s e now t1s t1e t2s t2e
  refine ⟨?_, ?_, ?_, ?_, ?_, ?_⟩ <;>
    rcases s with _ | a <;> rcases e with _ | b <;>
      simp only [validateDates, handleCompareValid, fetchSourcesDatesValid,
        Option.any_none, Option.any_some, Option.mem_def, Option.some.injEq,
        Bool.or_eq_true, decide_eq_true_eq] <;>
      split_ifs <;> simp_all <;> intros <;> omega

/-- Witness for C3 at concrete inputs: a range with start equal to end is
accepted by all three validators. -/
theorem dateRangeValidationWitness :
    (validateDates (some 5) (some 5) 10).1 = true ∧
    (fetchSourcesDatesValid (some 5) (some 5) 10).1 = true ∧
    (handleCompareValid 3 3 7 7 10).1 = true := by
  have h := dateRangeValidationCorrect (some 5) (some 5) 10 3 3 7 7
  exact ⟨h.1.mpr (by simp), h.2.2.2.2.1.mpr (by simp), h.2.2.1.mpr (by simp)⟩

/-- Concatenating the `N`-sized chunks numbered `0, …, k-1` of a list gives
its first `k*N` elements. -/
theorem chunkFlatten {α : Type} (N k : Nat) (xs : List α) :
    (List.range k).flatMap (fun i => (xs.drop (i * N)).take N) =
      xs.take (k * N) := by
  induction k with
  | zero => simp
  | succ k ih =>
    rw [List.range_succ, List.flatMap_append, ih, Nat.succ_mul, List.take_add]
    simp

/-- C6: pagination is a partition of the displayed list, for the
SourceAnalysis page size 8 and the CountryDetail page size 3: concatenating
the pages `1, …, totalPages` (with `totalPages = ⌈n / N⌉`) restores the list
exactly — so every item appears on exactly one page — and page `p ≥ 1` shows
precisely the items at indices `(p-1)*N` through `min(p*N, n) - 1`. -/
theorem paginationPartitions :
    ∀ (xs : List GroupedSourceData) (ys : List TimeArticle) (p q : Nat),
      (List.range (sourceTotalPages xs)).flatMap
          (fun i => sourceCurrentItems xs (i + 1)) = xs ∧
      (1 ≤ p → sourceCurrentItems xs p =
        (xs.take (p * itemsPerPage)).drop ((p - 1) * itemsPerPage)) ∧
      (List.range (articleTotalPages ys)).flatMap
          (fun i => getCurrentArticles ys (i + 1)) = ys ∧
      (1 ≤ q → getCurrentArticles ys q =
        (ys.take (q * articlesPerPage)).drop ((q - 1) * articlesPerPage)) := by
  intro xs ys p q
  refine ⟨?_, ?_, ?_, ?_⟩
  · have h : ∀ i : Nat, sourceCurrentItems xs (i + 1) = (xs.drop (i * 8)).take 8 := by
      intro i; simp [sourceCurrentItems, itemsPerPage]
    simp only [h, chunkFlatten]
    apply List.take_of_length_le
    simp only [sourceTotalPages, itemsPerPage]
    omega
  · intro hp
    simp only [sourceCurrentItems, itemsPerPage, List.drop_take]
    congr 1
    omega
  · have h : ∀ i : Nat, getCurrentArticles ys (i + 1) = (ys.drop (i * 3)).take 3 := by
      intro i; simp [getCurrentArticles, articlesPerPage]
    simp only [h, chunkFlatten]
    apply List.take_of_length_le
    simp only [articleTotalPages, articlesPerPage]
    omega
  · intro hq
    simp only [getCurrentArticles, articlesPerPage, List.drop_take]
    congr 1
    omega

/-- Witness for C6 at a concrete input: a 10-element source list paginates
into pages of 8 and 2, and page 2 holds exactly the items at indices 8, 9. -/
theorem paginationPartitionsWitness :
    sourceCurrentItems (List.replicate 10 (⟨"g", none, 0, 0, "", []⟩ : GroupedSourceData)) 2 =
      ((List.replicate 10 (⟨"g", none, 0, 0, "", []⟩ : GroupedSourceData)).take 16).drop 8 := by
  have h := paginationPartitions
    (List.replicate 10 (⟨"g", none, 0, 0, "", []⟩ : GroupedSourceData)) [] 2 1
  exact h.2.1 (by decide)

/-- C7: the query string contains exactly the provided parameters:
`start_date` is present (with the `toISOString` serialization of the passed
date) exactly when a start date was passed, likewise `end_date`, and
`getGroupedSources` always sends `group_by` with the given grouping key. -/
theorem queryParamsExact :
    ∀ (s e : Option Int) (groupBy : String),
      (countryTimeStatsParams s e).lookup "start_date" = s.map toISOString ∧
      (countryTimeStatsParams s e).lookup "end_date" = e.map toISOString ∧
      (countryTimeStatsParams s e).map Prod.fst =
        (match s with | some _ => ["start_date"] | none => []) ++
        (match e with | some _ => ["end_date"] | none => []) ∧
      (groupedSourcesParams groupBy s e).lookup "group_by" = some groupBy ∧
      (groupedSourcesParams groupBy s e).lookup "start_date" = s.map toISOString ∧
      (groupedSourcesParams groupBy s e).lookup "end_date" = e.map toISOString ∧
      (groupedSourcesParams groupBy s e).map Prod.fst =
        "group_by" ::
          ((match s with | some _ => ["start_date"] | none => []) ++
           (match e with | some _ => ["end_date"] | none => [])) := by
  intro s e gb
  rcases s with _ | a <;> rcases e with _ | b <;>
    refine ⟨rfl, rfl, rfl, rfl, rfl, rfl, rfl⟩

/-- C1 counterexample: `timeFrameComparison` does *not* swallow its errors —
on a failed fetch the `catch` block ends in `throw error`, so the caller
receives the exception (`Except.error`), not a default value. -/
theorem timeFrameComparisonRethrows :
    timeFrameComparisonRun FetchOutcome.networkError = Except.error () := rfl

/-- C1 (amended): the seven dataService fetchers (`getGlobalStats`,
`getCountryData`, `getCountryTimeStats`, `getGroupedSources`,
`getSourceAnalysis`, `getTopCountries`, `getDailyAverages`) catch every
error during fetch or JSON parsing and return the empty/default value of
their result type, with a single fetch attempt (no retry); but
`timeFrameComparison` rethrows the error to its caller. -/
theorem serviceErrorHandling :
    ∀ (stG : GlobalStatsCacheState) (now : Int)
      (cacheC : List (String × CountryData)) (iso2 : String)
      (cacheT : TimeStatsCache) (s e : Option Int)
      (cacheTop : Option (List CountryData))
      (r1 : FetchOutcome RawGlobalStats) (r2 : FetchOutcome CountryData)
      (r3 : FetchOutcome CountryTimeStats)
      (r4 : FetchOutcome (List GroupedSourceData))
      (r5 : FetchOutcome (Option (List SourceAnalysisData)))
      (r6 : FetchOutcome (List CountryData))
      (r7 : FetchOutcome DailyAverageResponse)
      (r8 : FetchOutcome (RawTimeFrame × RawTimeFrame)),
      (globalCacheValid stG now = false → r1.isError = true →
        (getGlobalStatsStep stG now r1).1 = zeroGlobalStats) ∧
      (cacheC.lookup iso2 = none → r2.isError = true →
        (getCountryDataStep cacheC iso2 now r2).1 = none) ∧
      (cacheT.lookup (countryTimeStatsKey iso2 s e) = none →
        r3.isError = true →
        (getCountryTimeStatsStep cacheT iso2 s e now r3).1 =
          zeroCountryTimeStats) ∧
      (∀ d ts, cacheT.lookup (countryTimeStatsKey iso2 s e) = some (d, ts) →
        cacheDurationMs ≤ now - ts → r3.isError = true →
        (getCountryTimeStatsStep cacheT iso2 s e now r3).1 =
          zeroCountryTimeStats) ∧
      (r4.isError = true → getGroupedSourcesRun r4 = []) ∧
      (r5.isError = true → getSourceAnalysisRun r5 = []) ∧
      (cacheTop = none → r6.isError = true →
        (getTopCountriesStep cacheTop now r6).1 = []) ∧
      (r7.isError = true → getDailyAveragesRun r7 = zeroDailyAverageResponse) ∧
      (r8.isError = true → timeFrameComparisonRun r8 = Except.error ()) := by
  intro stG now cacheC iso2 cacheT s e cacheTop r1 r2 r3 r4 r5 r6 r7 r8
  refine ⟨?_, ?_, ?_, ?_, ?_, ?_, ?_, ?_, ?_⟩
  · intro hv he
    cases r1 <;> simp_all [getGlobalStatsStep, FetchOutcome.isError]
  · intro hl he
    cases r2 <;>
      simp [getCountryDataStep, hl, FetchOutcome.isError] at he ⊢
  · intro hl he
    cases r3 <;>
      simp [getCountryTimeStatsStep, hl, FetchOutcome.isError] at he ⊢
  · intro d ts hl hexp he
    cases r3 <;>
      simp [getCountryTimeStatsStep, hl, FetchOutcome.isError] at he ⊢ <;>
      rw [if_neg (by omega)]
  · intro he; cases r4 <;> simp_all [getGroupedSourcesRun, FetchOutcome.isError]
  · intro he; cases r5 <;> simp_all [getSourceAnalysisRun, FetchOutcome.isError]
  · intro hc he
    cases r6 <;> simp_all [getTopCountriesStep, FetchOutcome.isError]
  · intro he; cases r7 <;> simp_all [getDailyAveragesRun, FetchOutcome.isError]
  · intro he
    cases r8 <;> simp_all [timeFrameComparisonRun, FetchOutcome.isError]

/-- Witness for C1 (amended) at concrete inputs: empty caches, rejected
fetches. -/
theorem serviceErrorHandlingWitness :
    (getGlobalStatsStep ⟨none, none⟩ 0 FetchOutcome.networkError).1 =
      zeroGlobalStats ∧
    (getCountryDataStep [] "US" 0 FetchOutcome.networkError).1 = none ∧
    (getCountryTimeStatsStep [] "US" none none 0 FetchOutcome.parseError).1 =
      zeroCountryTimeStats ∧
    getGroupedSourcesRun (FetchOutcome.httpError 500) = [] ∧
    getSourceAnalysisRun FetchOutcome.networkError = [] ∧
    (getTopCountriesStep none 0 FetchOutcome.networkError).1 = [] ∧
    getDailyAveragesRun FetchOutcome.parseError = zeroDailyAverageResponse ∧
    timeFrameComparisonRun FetchOutcome.parseError = Except.error () := by
  have h := serviceErrorHandling ⟨none, none⟩ 0 [] "US" [] none none none
    FetchOutcome.networkError FetchOutcome.networkError FetchOutcome.parseError
    (FetchOutcome.httpError 500) FetchOutcome.networkError
    FetchOutcome.networkError FetchOutcome.parseError FetchOutcome.parseError
  exact ⟨h.1 rfl rfl, h.2.1 rfl rfl, h.2.2.1 rfl rfl, h.2.2.2.2.1 rfl,
    h.2.2.2.2.2.1 rfl, h.2.2.2.2.2.2.1 rfl rfl, h.2.2.2.2.2.2.2.1 rfl,
    h.2.2.2.2.2.2.2.2 rfl⟩

/-- C9: `getGlobalStats` is atomic on failure: an error outcome never
changes the cache state (`cachedGlobalStats` / `lastFetchTime`), the value
returned on an error with no valid cache is the all-zero default, and the
only way the cache state changes at all is a successful fetch, which stores
the freshly built stats with the current time. -/
theorem getGlobalStatsAtomicOnFailure :
    ∀ (st : GlobalStatsCacheState) (now : Int)
      (r : FetchOutcome RawGlobalStats),
      (r.isError = true → (getGlobalStatsStep st now r).2 = st) ∧
      (r.isError = true → globalCacheValid st now = false →
        (getGlobalStatsStep st now r).1 = zeroGlobalStats) ∧
      ((getGlobalStatsStep st now r).2 ≠ st →
        ∃ d, r = FetchOutcome.success d ∧
          (getGlobalStatsStep st now r).2 =
            ⟨some (buildGlobalStats d), some now⟩) := by
  intro st now r
  refine ⟨?_, ?_, ?_⟩
  · intro he
    cases r <;> simp_all [getGlobalStatsStep, FetchOutcome.isError] <;>
      split <;> rfl
  · intro he hv
    cases r <;> simp_all [getGlobalStatsStep, FetchOutcome.isError]
  · intro hne
    unfold getGlobalStatsStep at hne ⊢
    by_cases hv : globalCacheValid st now = true
    · rw [if_pos hv] at hne
      exact absurd rfl hne
    · rw [if_neg hv] at hne ⊢
      cases r with
      | success d => exact ⟨d, rfl, rfl⟩
      | httpError status => exact absurd rfl hne
      | networkError => exact absurd rfl hne
      | parseError => exact absurd rfl hne

/-- Witness for C9 at a concrete input: an expired cache entry survives a
parse failure untouched, and the caller gets the zero default. -/
theorem getGlobalStatsAtomicOnFailureWitness :
    (getGlobalStatsStep ⟨some zeroGlobalStats, some 1⟩ 300002
        FetchOutcome.parseError).2 = ⟨some zeroGlobalStats, some 1⟩ ∧
    (getGlobalStatsStep ⟨some zeroGlobalStats, some 1⟩ 300002
        FetchOutcome.parseError).1 = zeroGlobalStats := by
  have h := getGlobalStatsAtomicOnFailure ⟨some zeroGlobalStats, some 1⟩
    300002 FetchOutcome.parseError
  exact ⟨h.1 rfl, h.2.1 rfl (by decide)⟩

/-- A concrete country record, for the C2 counterexample. -/
def usaCountryStale : CountryData := ⟨"USA", "United States", 5, "US", "US", 1⟩

/-- A different record the server would return on a re-fetch. -/
def usaCountryFresh : CountryData := ⟨"USA", "United States", 7, "US", "US", 1⟩

/-- C2 counterexample: the `countryCache` of `getCountryData` has no TTL.
A first call at time 0 stores the entry; a call exactly 5 minutes later
(where the claim demands a re-fetch) still returns the stale cached value,
ignoring a fetch that would have produced different data, and leaves the
cache unchanged. -/
theorem countryDataCacheHasNoTTL :
    (getCountryDataStep [] "US" 0 (FetchOutcome.success usaCountryStale)).2 =
      [("US", usaCountryStale)] ∧
    (getCountryDataStep [("US", usaCountryStale)] "US" cacheDurationMs
        (FetchOutcome.success usaCountryFresh)).1 = some usaCountryStale ∧
    (getCountryDataStep [("US", usaCountryStale)] "US" cacheDurationMs
        (FetchOutcome.success usaCountryFresh)).2 =
      [("US", usaCountryStale)] ∧
    usaCountryStale ≠ usaCountryFresh := by
  refine ⟨rfl, rfl, rfl, ?_⟩
  decide

/-- C2 (amended): only the global-stats and country-time-stats caches carry
the fixed 5-minute TTL — a call strictly less than 5 minutes after storage
returns the cached value without consulting the fetch, and a call 5 minutes
or more after storage ignores the cached value and lets the fetch outcome
decide.  The per-country data cache and the top-countries cache have no
expiry: a stored entry is returned on every later call, whatever the
elapsed time, and the fetch outcome is ignored. -/
theorem cacheTTLBehaviour :
    ∀ (gs : GlobalStats) (t now : Int) (r1 : FetchOutcome RawGlobalStats)
      (cacheT : TimeStatsCache) (iso2 : String) (s e : Option Int)
      (d : CountryTimeStats) (ts : Int) (r3 : FetchOutcome CountryTimeStats)
      (cacheC : List (String × CountryData)) (dc : CountryData)
      (r2 : FetchOutcome CountryData) (l : List CountryData)
      (r6 : FetchOutcome (List CountryData)),
      (0 < t → now - t < cacheDurationMs →
        getGlobalStatsStep ⟨some gs, some t⟩ now r1 = (gs, ⟨some gs, some t⟩)) ∧
      (cacheDurationMs ≤ now - t →
        (∀ dg, r1 = FetchOutcome.success dg →
          getGlobalStatsStep ⟨some gs, some t⟩ now r1 =
            (buildGlobalStats dg, ⟨some (buildGlobalStats dg), some now⟩)) ∧
        (r1.isError = true →
          getGlobalStatsStep ⟨some gs, some t⟩ now r1 =
            (zeroGlobalStats, ⟨some gs, some t⟩))) ∧
      (cacheT.lookup (countryTimeStatsKey iso2 s e) = some (d, ts) →
        (now - ts < cacheDurationMs →
          getCountryTimeStatsStep cacheT iso2 s e now r3 = (d, cacheT)) ∧
        (cacheDurationMs ≤ now - ts →
          (∀ fresh, r3 = FetchOutcome.success fresh →
            getCountryTimeStatsStep cacheT iso2 s e now r3 =
              (fresh, (countryTimeStatsKey iso2 s e, (fresh, now)) :: cacheT)) ∧
          (r3.isError = true →
            getCountryTimeStatsStep cacheT iso2 s e now r3 =
              (zeroCountryTimeStats, cacheT)))) ∧
      (cacheC.lookup iso2 = some dc →
        getCountryDataStep cacheC iso2 now r2 = (some dc, cacheC)) ∧
      (getTopCountriesStep (some l) now r6 = (l, some l)) := by
  intro gs t now r1 cacheT iso2 s e d ts r3 cacheC dc r2 l r6
  refine ⟨?_, ?_, ?_, ?_, ?_⟩
  · intro ht hlt
    have hv : globalCacheValid ⟨some gs, some t⟩ now = true := by
      simp [globalCacheValid]
      omega
    simp [getGlobalStatsStep, hv]
  · intro hexp
    have hv : globalCacheValid ⟨some gs, some t⟩ now = false := by
      simp [globalCacheValid]
      omega
    constructor
    · intro dg hr
      subst hr
      simp [getGlobalStatsStep, hv]
    · intro he
      cases r1 <;> simp [getGlobalStatsStep, hv, FetchOutcome.isError] at he ⊢
  · intro hl
    constructor
    · intro hlt
      simp [getCountryTimeStatsStep, hl, if_pos hlt]
    · intro hexp
      constructor
      · intro fresh hr
        subst hr
        simp [getCountryTimeStatsStep, hl]
        omega
      · intro he
        cases r3 <;>
          simp [getCountryTimeStatsStep, hl, FetchOutcome.isError] at he ⊢ <;>
          omega
  · intro hl
    simp [getCountryDataStep, hl]
  · rfl

/-- Witness for C2 (amended) at concrete inputs: a fresh global-stats entry
is served from the cache, an expired one is re-fetched, and a 10-minute-old
country entry is still served. -/
theorem cacheTTLBehaviourWitness :
    getGlobalStatsStep ⟨some zeroGlobalStats, some 1⟩ 100
        (FetchOutcome.success ⟨3, [], 3⟩) =
      (zeroGlobalStats, ⟨some zeroGlobalStats, some 1⟩) ∧
    getGlobalStatsStep ⟨some zeroGlobalStats, some 1⟩ 300001
        (FetchOutcome.success ⟨3, [], 3⟩) =
      (buildGlobalStats ⟨3, [], 3⟩,
        ⟨some (buildGlobalStats ⟨3, [], 3⟩), some 300001⟩) ∧
    getCountryDataStep [("US", usaCountryStale)] "US" 600000
        FetchOutcome.networkError = (some usaCountryStale, [("US", usaCountryStale)]) := by
  have h := cacheTTLBehaviour zeroGlobalStats 1 100
    (FetchOutcome.success ⟨3, [], 3⟩) [] "US" none none zeroCountryTimeStats 0
    FetchOutcome.networkError [("US", usaCountryStale)] usaCountryStale
    FetchOutcome.networkError [] FetchOutcome.networkError
  have h2 := cacheTTLBehaviour zeroGlobalStats 1 300001
    (FetchOutcome.success ⟨3, [], 3⟩) [] "US" none none zeroCountryTimeStats 0
    FetchOutcome.networkError [("US", usaCountryStale)] usaCountryStale
    FetchOutcome.networkError [] FetchOutcome.networkError
  exact ⟨h.1 (by decide) (by decide),
    (h2.2.1 (by decide)).1 ⟨3, [], 3⟩ rfl,
    h.2.2.2.1 rfl⟩

/-- A successful association-list lookup yields a pair of the list. -/
theorem mem_of_lookup_eq_some {l : List (String × String)} {k v : String}
    (h : l.lookup k = some v) : (k, v) ∈ l := by
  rcases List.lookup_eq_some_iff.mp h with ⟨l₁, l₂, rfl, _⟩
  simp

/-- C10: `getSourceAnalysis` normalizes only the country filter.  The
`author` field is passed through unchanged, `startDate` / `endDate` are
serialized with `toISOString` exactly when present, an absent country stays
absent, and a present country string is replaced by the ISO2 code of a
`countryNames` entry whose name it case-insensitively equals — otherwise it
is sent unchanged. -/
theorem sourceAnalysisBodyNormalization :
    ∀ (f : SourceAnalysisFilters),
      (getSourceAnalysisBody f).author = f.author ∧
      (getSourceAnalysisBody f).startDate = f.startDate.map toISOString ∧
      (getSourceAnalysisBody f).endDate = f.endDate.map toISOString ∧
      (f.country = none → (getSourceAnalysisBody f).country = none) ∧
      (∀ c, f.country = some c →
        ((∃ p ∈ countryNames, jsToLower p.2 = jsToLower c) →
          ∃ p ∈ countryNames, jsToLower p.2 = jsToLower c ∧
            (getSourceAnalysisBody f).country = some p.1) ∧
        ((∀ p ∈ countryNames, jsToLower p.2 ≠ jsToLower c) →
          (getSourceAnalysisBody f).country = some c)) := by
  intro f
  refine ⟨rfl, rfl, rfl, ?_, ?_⟩
  · intro h
    simp [getSourceAnalysisBody, h]
  · intro c hc
    constructor
    · rintro ⟨p, hp, hlow⟩
      by_cases hce : c = ""
      · subst hce
        have hne : ∀ q ∈ countryNames, ¬ jsToLower q.2 = jsToLower "" := by
          decide
        exact absurd hlow (hne p hp)
      · have hsome : (countryNameToCode.lookup (jsToLower c)).isSome := by
          rw [List.lookup_isSome_iff]
          refine ⟨(jsToLower p.2, p.1), ?_, ?_⟩
          · exact List.mem_map.mpr ⟨p, hp, rfl⟩
          · simp [hlow]
        rcases Option.isSome_iff_exists.mp hsome with ⟨v, hv⟩
        have hmem : (jsToLower c, v) ∈ countryNameToCode :=
          mem_of_lookup_eq_some hv
        rcases List.mem_map.mp hmem with ⟨q, hq, hqe⟩
        refine ⟨q, hq, ?_, ?_⟩
        · exact congrArg Prod.fst hqe
        · have : q.1 = v := congrArg Prod.snd hqe
          subst this
          simp [getSourceAnalysisBody, hc, hce, hv]
    · intro hnone
      by_cases hce : c = ""
      · subst hce
        simp [getSourceAnalysisBody, hc]
      · have hl : countryNameToCode.lookup (jsToLower c) = none := by
          rw [List.lookup_eq_none_iff]
          intro q hq
          rcases List.mem_map.mp hq with ⟨p, hp, rfl⟩
          simpa using fun h => hnone p hp h.symm
        simp [getSourceAnalysisBody, hc, hce, hl]

/-- Witness for C10 at concrete inputs: "united STATES" is replaced by "US",
while "Atlantis" and an absent country pass through. -/
theorem sourceAnalysisBodyNormalizationWitness :
    (getSourceAnalysisBody ⟨some 3, none, some "united STATES", some "bob"⟩).country =
      some "US" ∧
    (getSourceAnalysisBody ⟨some 3, none, some "Atlantis", some "bob"⟩).country =
      some "Atlantis" ∧
    (getSourceAnalysisBody ⟨some 3, none, some "united STATES", some "bob"⟩).author =
      some "bob" ∧
    (getSourceAnalysisBody ⟨some 3, none, some "united STATES", some "bob"⟩).startDate =
      some (toISOString 3) := by
  have h1 := sourceAnalysisBodyNormalization
    ⟨some 3, none, some "united STATES", some "bob"⟩
  have h2 := sourceAnalysisBodyNormalization
    ⟨some 3, none, some "Atlantis", some "bob"⟩
  refine ⟨?_, ?_, h1.1, h1.2.1⟩
  · rcases (h1.2.2.2.2 "united STATES" rfl).1
        ⟨("US", "United States"), by decide, by decide⟩ with ⟨p, hp, hlow, hbody⟩
    have huniq : ∀ q ∈ countryNames,
        jsToLower q.2 = jsToLower "united STATES" → q = ("US", "United States") := by
      decide
    rw [hbody, congrArg Prod.fst (huniq p hp hlow)]
  · exact (h2.2.2.2.2 "Atlantis" rfl).2 (by decide)

/-- The kept elements of the dedup filter form a sublist of the input. -/
theorem dedupWithSeen_fst_sublist (key : α → String) :
    ∀ (l : List α) (seen : List String),
      (dedupWithSeen key seen l).1.Sublist l := by
  intro l
  induction l with
  | nil => intro seen; simp [dedupWithSeen]
  | cons a as ih =>
    intro seen
    by_cases h : key a ∈ seen
    · simp only [dedupWithSeen, if_pos h]
      exact (ih seen).cons a
    · simp only [dedupWithSeen, if_neg h]
      exact (ih (key a :: seen)).cons₂ a

/-- After the dedup filter, the keys of the kept elements are pairwise
distinct and disjoint from the initial seen-set. -/
theorem dedupWithSeen_keys_nodup (key : α → String) :
    ∀ (l : List α) (seen : List String),
      ((dedupWithSeen key seen l).1.map key).Nodup ∧
      ∀ a ∈ (dedupWithSeen key seen l).1, key a ∉ seen := by
  intro l
  induction l with
  | nil => intro seen; simp [dedupWithSeen]
  | cons a as ih =>
    intro seen
    by_cases h : key a ∈ seen
    · simpa only [dedupWithSeen, if_pos h] using ih seen
    · simp only [dedupWithSeen, if_neg h]
      rcases ih (key a :: seen) with ⟨hnodup, hout⟩
      constructor
      · simp only [List.map_cons, List.nodup_cons]
        refine ⟨?_, hnodup⟩
        intro hmem
        rcases List.mem_map.mp hmem with ⟨b, hb, hkb⟩
        exact hout b hb (hkb ▸ List.mem_cons_self _ _)
      · intro b hb
        rcases List.mem_cons.mp hb with rfl | hb'
        · exact h
        · exact fun hs => hout b hb' (List.mem_cons_of_mem _ hs)

/-- The dedup filter leaves a list with pairwise-distinct keys, none of them
already seen, unchanged. -/
theorem dedupWithSeen_fst_id (key : α → String) :
    ∀ (l : List α) (seen : List String),
      (l.map key).Nodup → (∀ a ∈ l, key a ∉ seen) →
      (dedupWithSeen key seen l).1 = l := by
  intro l
  induction l with
  | nil => intro seen _ _; rfl
  | cons a as ih =>
    intro seen hnodup hout
    have ha : key a ∉ seen := hout a (List.mem_cons_self _ _)
    simp only [dedupWithSeen, if_neg ha]
    rw [ih (key a :: seen) (by simpa using hnodup.of_cons) ?_]
    intro b hb
    simp only [List.map_cons, List.nodup_cons] at hnodup
    intro hmem
    rcases List.mem_cons.mp hmem with heq | hs
    · exact hnodup.1 (heq ▸ List.mem_map_of_mem key hb)
    · exact hout b (List.mem_cons_of_mem _ hb) hs

/-- Threading the dedup filter through an appended list splits into the two
halves, the second starting from the seen-set the first one ends with. -/
theorem dedupWithSeen_append (key : α → String) :
    ∀ (xs ys : List α) (seen : List String),
      dedupWithSeen key seen (xs ++ ys) =
        ((dedupWithSeen key seen xs).1 ++
          (dedupWithSeen key (dedupWithSeen key seen xs).2 ys).1,
         (dedupWithSeen key (dedupWithSeen key seen xs).2 ys).2) := by
  intro xs
  induction xs with
  | nil => intro ys seen; simp [dedupWithSeen]
  | cons a as ih =>
    intro ys seen
    by_cases h : key a ∈ seen
    · simp only [List.cons_append, dedupWithSeen, if_pos h]
      exact ih ys seen
    · simp only [List.cons_append, dedupWithSeen, if_neg h, List.append_eq]
      rw [ih ys (key a :: seen)]

/-- The first occurrence of a key (no earlier equal key, key not yet seen)
is kept by the dedup filter. -/
theorem dedupWithSeen_keeps_first (key : α → String) :
    ∀ (l₁ : List α) (a : α) (l₂ : List α) (seen : List String),
      key a ∉ l₁.map key → key a ∉ seen →
      a ∈ (dedupWithSeen key seen (l₁ ++ a :: l₂)).1 := by
  intro l₁
  induction l₁ with
  | nil =>
    intro a l₂ seen _ hseen
    simp only [List.nil_append, dedupWithSeen, if_neg hseen]
    exact List.mem_cons_self _ _
  | cons b l₁ ih =>
    intro a l₂ seen hmap hseen
    simp only [List.map_cons, List.mem_cons, not_or] at hmap
    by_cases h : key b ∈ seen
    · simp only [List.cons_append, dedupWithSeen, if_pos h]
      exact ih a l₂ seen hmap.2 hseen
    · simp only [List.cons_append, dedupWithSeen, if_neg h]
      refine List.mem_cons_of_mem _ (ih a l₂ (key b :: seen) hmap.2 ?_)
      simp only [List.mem_cons, not_or]
      exact ⟨hmap.1, hseen⟩

/-- An item surviving the timeline coercion is a fixed point of it. -/
theorem processTimelineItem_stable {i j : RawTimelineItem}
    (h : processTimelineItem i = some j) : processTimelineItem j = some j := by
  unfold processTimelineItem at h ⊢
  by_cases hd : i.date = ""
  · rw [if_pos hd] at h; exact absurd h (by simp)
  · rw [if_neg hd] at h
    cases hc : i.count with
    | none => rw [hc] at h; exact absurd h (by simp)
    | some k =>
      rw [hc] at h
      have hj : j = ⟨i.date, some k, some (i.tone.getD 0)⟩ := by
        exact (Option.some.injEq _ _ ▸ h).symm
      subst hj
      rw [if_neg hd]
      rfl

/-- A `filterMap` whose function fixes every list element is the identity. -/
theorem filterMap_eq_self_of_forall {α : Type} {f : α → Option α} :
    ∀ (l : List α), (∀ a ∈ l, f a = some a) → l.filterMap f = l := by
  intro l
  induction l with
  | nil => intro _; rfl
  | cons a as ih =>
    intro h
    rw [List.filterMap_cons, h a (List.mem_cons_self _ _),
      ih fun b hb => h b (List.mem_cons_of_mem _ hb)]

/-- The timeline processing of CountryDetail is idempotent. -/
theorem processTimeline_idempotent (l : List RawTimelineItem) :
    processTimeline (processTimeline l) = processTimeline l := by
  unfold processTimeline
  by_cases he : l.isEmpty
  · simp [he]
  · rw [if_neg he]
    by_cases he' : (l.filterMap processTimelineItem).isEmpty
    · rw [if_pos he']
    · rw [if_neg he']
      apply filterMap_eq_self_of_forall
      intro a ha
      rcases List.mem_filterMap.mp ha with ⟨b, _, hb⟩
      exact processTimelineItem_stable hb

/-- The whole per-fetch processing of CountryDetail is idempotent. -/
theorem processCountryTimeStats_idempotent (x : CountryTimeStats) :
    processCountryTimeStats (processCountryTimeStats x) =
      processCountryTimeStats x := by
  unfold processCountryTimeStats dedupByFirst
  simp only [processTimeline_idempotent]
  congr 1
  exact dedupWithSeen_fst_id (fun a => a.title)
    (dedupWithSeen (fun a => a.title) [] x.articles).1 []
    (dedupWithSeen_keys_nodup (fun a => a.title) x.articles []).1
    (fun a _ => List.not_mem_nil _)

/-- Stats with two articles sharing a title, for the C4 counterexample. -/
def dupTitleStats : CountryTimeStats :=
  ⟨2, 0, [], [⟨"T", "2024-01-01", "s", "u"⟩, ⟨"T", "2024-01-02", "s", "u"⟩]⟩

/-- C4 counterexample: the object stored in `countryTimeStatsCache` *is*
mutated after insertion.  `getCountryTimeStats` alone stores the fetched
object unchanged, but CountryDetail's `fetchData` then reassigns
`timelineData` and `articles` on that very object, so after `fetchData` the
cache holds the processed value, which differs from the inserted one when a
title is duplicated. -/
theorem countryTimeStatsCacheIsMutated :
    (getCountryTimeStatsStep [] "US" none none 0
        (FetchOutcome.success dupTitleStats)).2.lookup
        (countryTimeStatsKey "US" none none) = some (dupTitleStats, 0) ∧
    (fetchDataStep [] "US" none none 0
        (FetchOutcome.success dupTitleStats)).2.lookup
        (countryTimeStatsKey "US" none none) =
      some (processCountryTimeStats dupTitleStats, 0) ∧
    processCountryTimeStats dupTitleStats ≠ dupTitleStats := by
  refine ⟨rfl, rfl, ?_⟩
  decide

/-- C4 (amended): CountryDetail's `fetchData` does mutate the record
returned by `getCountryTimeStats` — and thereby the entry stored in
`countryTimeStatsCache` — replacing `timelineData` and `articles` with their
processed versions; but the processing is idempotent, and a cache hit both
returns the processed entry and re-stores it (timestamp unchanged), so two
cache hits for the same key within the TTL return identical data. -/
theorem fetchDataIdempotentOnCacheHits :
    ∀ (x : CountryTimeStats) (cache : TimeStatsCache) (iso2 : String)
      (s e : Option Int) (d : CountryTimeStats) (ts now1 now2 : Int)
      (r1 r2 : FetchOutcome CountryTimeStats),
      processCountryTimeStats (processCountryTimeStats x) =
        processCountryTimeStats x ∧
      (cache.lookup (countryTimeStatsKey iso2 s e) = some (d, ts) →
        now1 - ts < cacheDurationMs → now2 - ts < cacheDurationMs →
        (fetchDataStep cache iso2 s e now1 r1).1 =
          processCountryTimeStats d ∧
        (fetchDataStep cache iso2 s e now1 r1).2.lookup
            (countryTimeStatsKey iso2 s e) =
          some (processCountryTimeStats d, ts) ∧
        (fetchDataStep (fetchDataStep cache iso2 s e now1 r1).2
            iso2 s e now2 r2).1 = (fetchDataStep cache iso2 s e now1 r1).1) := by
  intro x cache iso2 s e d ts now1 now2 r1 r2
  refine ⟨processCountryTimeStats_idempotent x, ?_⟩
  intro hl h1 h2
  have hstep1 : fetchDataStep cache iso2 s e now1 r1 =
      (processCountryTimeStats d,
       (countryTimeStatsKey iso2 s e, (processCountryTimeStats d, ts)) :: cache) := by
    simp [fetchDataStep, hl, if_pos h1]
  refine ⟨by rw [hstep1], ?_, ?_⟩
  · rw [hstep1]
    exact List.lookup_cons_self
  · rw [hstep1]
    simp [fetchDataStep, List.lookup_cons_self, if_pos h2,
      processCountryTimeStats_idempotent]

/-- Witness for C4 (amended) at concrete inputs: two back-to-back cache hits
on the mutated entry display the same data. -/
theorem fetchDataIdempotentOnCacheHitsWitness :
    (fetchDataStep [(countryTimeStatsKey "US" none none, (dupTitleStats, 0))]
        "US" none none 1 FetchOutcome.networkError).1 =
      processCountryTimeStats dupTitleStats ∧
    (fetchDataStep
        (fetchDataStep [(countryTimeStatsKey "US" none none, (dupTitleStats, 0))]
          "US" none none 1 FetchOutcome.networkError).2
        "US" none none 2 FetchOutcome.networkError).1 =
      (fetchDataStep [(countryTimeStatsKey "US" none none, (dupTitleStats, 0))]
        "US" none none 1 FetchOutcome.networkError).1 := by
  have h := fetchDataIdempotentOnCacheHits dupTitleStats
    [(countryTimeStatsKey "US" none none, (dupTitleStats, 0))] "US" none none
    dupTitleStats 0 1 2 FetchOutcome.networkError FetchOutcome.networkError
  rcases h.2 List.lookup_cons_self (by decide) (by decide) with ⟨ha, _, hc⟩
  exact ⟨ha, hc⟩

/-- Flattening the grouped-sources dedup pass equals running the dedup
filter once over the flattened articles: the seen-map is shared by all
groups. -/
theorem dedupGroupsAux_flatMap :
    ∀ (gs : List GroupedSourceData) (seen : List String),
      (dedupGroupsAux seen gs).flatMap (fun g => g.recentArticles) =
        (dedupWithSeen (fun a => a.title) seen
          (gs.flatMap (fun g => g.recentArticles))).1 := by
  intro gs
  induction gs with
  | nil => intro seen; simp [dedupGroupsAux, dedupWithSeen]
  | cons g gs ih =>
    intro seen
    simp only [dedupGroupsAux, List.flatMap_cons]
    rw [dedupWithSeen_append, ih]

/-- The grouped-sources dedup pass keeps every group, in order, changing
only its `recentArticles`, which stay a sublist of the original ones. -/
theorem dedupGroupsAux_forall2 :
    ∀ (gs : List GroupedSourceData) (seen : List String),
      List.Forall₂
        (fun g' g => g' = { g with recentArticles := g'.recentArticles } ∧
          g'.recentArticles.Sublist g.recentArticles)
        (dedupGroupsAux seen gs) gs := by
  intro gs
  induction gs with
  | nil => intro seen; exact List.Forall₂.nil
  | cons g gs ih =>
    intro seen
    exact List.Forall₂.cons
      ⟨rfl, dedupWithSeen_fst_sublist (fun a => a.title) g.recentArticles seen⟩
      (ih _)

/-- Flattening the source-analysis conversion pass equals running the dedup
filter once over the flattened articles of the response. -/
theorem convertAnalysisAux_flatMap :
    ∀ (data : List SourceAnalysisData) (ft : FilterType) (seen : List String),
      (convertAnalysisAux ft seen data).flatMap (fun g => g.recentArticles) =
        (dedupWithSeen (fun a => a.title) seen
          (data.flatMap (fun it => it.recentArticles))).1 := by
  intro data
  induction data with
  | nil => intro ft seen; simp [convertAnalysisAux, dedupWithSeen]
  | cons it rest ih =>
    intro ft seen
    simp only [convertAnalysisAux, List.flatMap_cons, convertAnalysisItem]
    rw [dedupWithSeen_append, ih]

/-- The source-analysis conversion pass converts every item, in order; each
converted group's articles are a sublist of the item's. -/
theorem convertAnalysisAux_forall2 :
    ∀ (data : List SourceAnalysisData) (ft : FilterType) (seen : List String),
      List.Forall₂
        (fun g' it => g' = convertAnalysisItem ft it g'.recentArticles ∧
          g'.recentArticles.Sublist it.recentArticles)
        (convertAnalysisAux ft seen data) data := by
  intro data
  induction data with
  | nil => intro ft seen; exact List.Forall₂.nil
  | cons it rest ih =>
    intro ft seen
    refine List.Forall₂.cons ⟨by rfl, ?_⟩ (ih _ _)
    simp only [convertAnalysisItem]
    exact dedupWithSeen_fst_sublist (fun a => a.title) it.recentArticles seen

/-- C8: in `fetchSources`, article deduplication is global across the whole
response, in both branches: the flattened articles of the result equal one
dedup pass over the flattened input (first occurrence in group order then
article order is kept — see the kept-first clauses — and all later
occurrences of a title, in any group, are removed), the surviving titles are
pairwise distinct over the entire result, and groups and surviving articles
keep their relative order (each output group changes only its
`recentArticles`, a sublist of the input's). -/
theorem fetchSourcesDedupIsGlobal :
    ∀ (gs : List GroupedSourceData) (ft : FilterType)
      (data : List SourceAnalysisData) (l₁ l₂ : List RecentArticle)
      (a : RecentArticle),
      ((fetchSourcesProcessedData gs).flatMap (fun g => g.recentArticles) =
        dedupByFirst (fun x => x.title) []
          (gs.flatMap (fun g => g.recentArticles))) ∧
      (((fetchSourcesProcessedData gs).flatMap
          (fun g => g.recentArticles)).map (fun x => x.title)).Nodup ∧
      List.Forall₂
        (fun g' g => g' = { g with recentArticles := g'.recentArticles } ∧
          g'.recentArticles.Sublist g.recentArticles)
        (fetchSourcesProcessedData gs) gs ∧
      (gs.flatMap (fun g => g.recentArticles) = l₁ ++ a :: l₂ →
        a.title ∉ l₁.map (fun x => x.title) →
        a ∈ (fetchSourcesProcessedData gs).flatMap (fun g => g.recentArticles)) ∧
      ((fetchSourcesConvertedData ft data).flatMap (fun g => g.recentArticles) =
        dedupByFirst (fun x => x.title) []
          (data.flatMap (fun it => it.recentArticles))) ∧
      (((fetchSourcesConvertedData ft data).flatMap
          (fun g => g.recentArticles)).map (fun x => x.title)).Nodup ∧
      List.Forall₂
        (fun g' it => g' = convertAnalysisItem ft it g'.recentArticles ∧
          g'.recentArticles.Sublist it.recentArticles)
        (fetchSourcesConvertedData ft data) data ∧
      (data.flatMap (fun it => it.recentArticles) = l₁ ++ a :: l₂ →
        a.title ∉ l₁.map (fun x => x.title) →
        a ∈ (fetchSourcesConvertedData ft data).flatMap
          (fun g => g.recentArticles)) := by
  intro gs ft data l₁ l₂ a
  refine ⟨dedupGroupsAux_flatMap gs [], ?_, dedupGroupsAux_forall2 gs [], ?_,
    convertAnalysisAux_flatMap data ft [], ?_,
    convertAnalysisAux_forall2 data ft [], ?_⟩
  · unfold fetchSourcesProcessedData
    rw [dedupGroupsAux_flatMap gs []]
    exact (dedupWithSeen_keys_nodup (fun x : RecentArticle => x.title)
      (gs.flatMap (fun g => g.recentArticles)) []).1
  · intro hflat hfirst
    unfold fetchSourcesProcessedData
    rw [dedupGroupsAux_flatMap gs [], hflat]
    exact dedupWithSeen_keeps_first (fun x => x.title) l₁ a l₂ [] hfirst
      (List.not_mem_nil _)
  · unfold fetchSourcesConvertedData
    rw [convertAnalysisAux_flatMap data ft []]
    exact (dedupWithSeen_keys_nodup (fun x : RecentArticle => x.title)
      (data.flatMap (fun it => it.recentArticles)) []).1
  · intro hflat hfirst
    unfold fetchSourcesConvertedData
    rw [convertAnalysisAux_flatMap data ft [], hflat]
    exact dedupWithSeen_keeps_first (fun x => x.title) l₁ a l₂ [] hfirst
      (List.not_mem_nil _)

/-- Witness for C8 at a concrete input: with two groups both containing a
"T"-titled article, only the first group's copy survives, and it is kept. -/
theorem fetchSourcesDedupIsGlobalWitness :
    (⟨"T", "u1", "d1", 0⟩ : RecentArticle) ∈
      (fetchSourcesProcessedData
        [⟨"a", none, 1, 0, "", [⟨"T", "u1", "d1", 0⟩]⟩,
         ⟨"b", none, 2, 0, "", [⟨"T", "u2", "d2", 0⟩, ⟨"S", "u3", "d3", 0⟩]⟩]).flatMap
        (fun g => g.recentArticles) := by
  have h := fetchSourcesDedupIsGlobal
    [⟨"a", none, 1, 0, "", [⟨"T", "u1", "d1", 0⟩]⟩,
     ⟨"b", none, 2, 0, "", [⟨"T", "u2", "d2", 0⟩, ⟨"S", "u3", "d3", 0⟩]⟩]
    FilterType.author [] []
    [⟨"T", "u2", "d2", 0⟩, ⟨"S", "u3", "d3", 0⟩] ⟨"T", "u1", "d1", 0⟩
  exact h.2.2.2.1 (by decide) (by decide)

/-- The group names after one `addToContinent` step: unchanged when the
continent already has a group, otherwise the new name is appended. -/
theorem addToContinent_names (n : String) (c : CountryData) :
    ∀ (acc : List ContinentData),
      (addToContinent n c acc).map (fun g => g.name) =
        if n ∈ acc.map (fun g => g.name) then acc.map (fun g => g.name)
        else acc.map (fun g => g.name) ++ [n] := by
  intro acc
  induction acc with
  | nil => simp [addToContinent]
  | cons g gs ih =>
    by_cases h : g.name = n
    · simp [addToContinent, h]
    · simp only [addToContinent, if_neg h, List.map_cons, ih]
      by_cases hm : n ∈ gs.map (fun g => g.name)
      · rw [if_pos hm, if_pos (List.mem_cons_of_mem _ hm)]
      · rw [if_neg hm]
        have hnot : n ∉ g.name :: gs.map (fun g => g.name) := by
          simp only [List.mem_cons, not_or]
          exact ⟨fun he => h he.symm, hm⟩
        rw [if_neg hnot]
        simp

/-- `addToContinent` preserves the per-group sum invariant. -/
theorem addToContinent_sum (n : String) (c : CountryData) :
    ∀ (acc : List ContinentData),
      (∀ g ∈ acc, g.totalArticles = (g.countries.map (fun x => x.value)).sum) →
      ∀ g ∈ addToContinent n c acc,
        g.totalArticles = (g.countries.map (fun x => x.value)).sum := by
  intro acc
  induction acc with
  | nil =>
    intro _ g hg
    simp only [addToContinent, List.mem_singleton] at hg
    subst hg
    simp
  | cons g0 gs ih =>
    intro hinv g hg
    by_cases h : g0.name = n
    · simp only [addToContinent, if_pos h, List.mem_cons] at hg
      rcases hg with rfl | hg'
      · have h0 := hinv g0 (List.mem_cons_self _ _)
        simp [h0, List.sum_append]
      · exact hinv g (List.mem_cons_of_mem _ hg')
    · simp only [addToContinent, if_neg h, List.mem_cons] at hg
      rcases hg with rfl | hg'
      · exact hinv g (List.mem_cons_self _ _)
      · exact ih (fun g' hg' => hinv g' (List.mem_cons_of_mem _ hg')) g hg'

/-- `addToContinent` with a country's own continent key preserves the
members-belong invariant. -/
theorem addToContinent_members (key : CountryData → String) (c : CountryData) :
    ∀ (acc : List ContinentData),
      (∀ g ∈ acc, ∀ x ∈ g.countries, key x = g.name) →
      ∀ g ∈ addToContinent (key c) c acc, ∀ x ∈ g.countries, key x = g.name := by
  intro acc
  induction acc with
  | nil =>
    intro _ g hg x hx
    simp only [addToContinent, List.mem_singleton] at hg
    subst hg
    simp only [List.mem_singleton] at hx
    subst hx
    rfl
  | cons g0 gs ih =>
    intro hinv g hg x hx
    by_cases h : g0.name = key c
    · simp only [addToContinent, if_pos h, List.mem_cons] at hg
      rcases hg with rfl | hg'
      · simp only [List.mem_append, List.mem_singleton] at hx
        rcases hx with hx0 | rfl
        · exact hinv g0 (List.mem_cons_self _ _) x hx0
        · exact h.symm
      · exact hinv g (List.mem_cons_of_mem _ hg') x hx
    · simp only [addToContinent, if_neg h, List.mem_cons] at hg
      rcases hg with rfl | hg'
      · exact hinv g (List.mem_cons_self _ _) x hx
      · exact ih (fun g' hg'' => hinv g' (List.mem_cons_of_mem _ hg'')) g hg' x hx

/-- `addToContinent` adds exactly the one country to the flattened members. -/
theorem addToContinent_flatten (n : String) (c : CountryData) :
    ∀ (acc : List ContinentData),
      ((addToContinent n c acc).flatMap (fun g => g.countries)).Perm
        (c :: acc.flatMap (fun g => g.countries)) := by
  intro acc
  induction acc with
  | nil => simp [addToContinent]
  | cons g0 gs ih =>
    by_cases h : g0.name = n
    · simp only [addToContinent, if_pos h, List.flatMap_cons]
      rw [List.append_assoc]
      exact List.perm_middle
    · simp only [addToContinent, if_neg h, List.flatMap_cons]
      exact (List.Perm.append_left g0.countries ih).trans List.perm_middle

/-- The grouping fold keeps group names pairwise distinct. -/
theorem groupFold_names_nodup (key : CountryData → String) :
    ∀ (cs : List CountryData) (acc : List ContinentData),
      (acc.map (fun g => g.name)).Nodup →
      (((cs.foldl (fun acc c => addToContinent (key c) c acc) acc)).map
        (fun g => g.name)).Nodup := by
  intro cs
  induction cs with
  | nil => intro acc h; exact h
  | cons c cs ih =>
    intro acc h
    rw [List.foldl_cons]
    apply ih
    rw [addToContinent_names]
    by_cases hm : key c ∈ acc.map (fun g => g.name)
    · rw [if_pos hm]; exact h
    · rw [if_neg hm]
      refine List.Nodup.append h (List.nodup_singleton _) ?_
      intro x hx hx1
      simp only [List.mem_singleton] at hx1
      exact hm (hx1 ▸ hx)

/-- The grouping fold keeps the per-group sum invariant. -/
theorem groupFold_sum (key : CountryData → String) :
    ∀ (cs : List CountryData) (acc : List ContinentData),
      (∀ g ∈ acc, g.totalArticles = (g.countries.map (fun x => x.value)).sum) →
      ∀ g ∈ cs.foldl (fun acc c => addToContinent (key c) c acc) acc,
        g.totalArticles = (g.countries.map (fun x => x.value)).sum := by
  intro cs
  induction cs with
  | nil => intro acc h; exact h
  | cons c cs ih =>
    intro acc h
    rw [List.foldl_cons]
    exact ih _ (addToContinent_sum (key c) c acc h)

/-- The grouping fold keeps the members-belong invariant. -/
theorem groupFold_members (key : CountryData → String) :
    ∀ (cs : List CountryData) (acc : List ContinentData),
      (∀ g ∈ acc, ∀ x ∈ g.countries, key x = g.name) →
      ∀ g ∈ cs.foldl (fun acc c => addToContinent (key c) c acc) acc,
        ∀ x ∈ g.countries, key x = g.name := by
  intro cs
  induction cs with
  | nil => intro acc h; exact h
  | cons c cs ih =>
    intro acc h
    rw [List.foldl_cons]
    exact ih _ (addToContinent_members key c acc h)

/-- The flattened members of the grouping fold are a permutation of the
initial members plus the folded countries. -/
theorem groupFold_flatten (key : CountryData → String) :
    ∀ (cs : List CountryData) (acc : List ContinentData),
      ((cs.foldl (fun acc c => addToContinent (key c) c acc) acc).flatMap
        (fun g => g.countries)).Perm
        (acc.flatMap (fun g => g.countries) ++ cs) := by
  intro cs
  induction cs with
  | nil => intro acc; simp
  | cons c cs ih =>
    intro acc
    rw [List.foldl_cons]
    have h1 := ih (addToContinent (key c) c acc)
    have h2 : ((addToContinent (key c) c acc).flatMap (fun g => g.countries) ++ cs).Perm
        ((c :: acc.flatMap (fun g => g.countries)) ++ cs) :=
      List.Perm.append_right cs (addToContinent_flatten (key c) c acc)
    exact (h1.trans h2).trans List.perm_middle.symm

/-- The partition properties of the continent grouping of `cs` into `r`:
group names are pairwise distinct; every member of a group has that group's
continent key; the flattened members are a permutation of the input; each
group's `totalArticles` is the sum of its members' `value`s; and every
input country lies in exactly one group. -/
def GroupingOk (key : CountryData → String) (cs : List CountryData)
    (r : List ContinentData) : Prop :=
  (r.map (fun g => g.name)).Nodup ∧
  (∀ g ∈ r, ∀ x ∈ g.countries, key x = g.name) ∧
  (r.flatMap (fun g => g.countries)).Perm cs ∧
  (∀ g ∈ r, g.totalArticles = (g.countries.map (fun x => x.value)).sum) ∧
  (∀ c ∈ cs, ∃ g, g ∈ r ∧ c ∈ g.countries ∧
    ∀ g', g' ∈ r → c ∈ g'.countries → g' = g)

/-- The grouping fold from the empty accumulator satisfies all the partition
properties. -/
theorem groupingOk_of (key : CountryData → String) (cs : List CountryData) :
    GroupingOk key cs (groupByContinent key cs) := by
  have hn := groupFold_names_nodup key cs [] (by simp)
  have hm := groupFold_members key cs [] (by simp)
  have hs := groupFold_sum key cs [] (by simp)
  have hf := groupFold_flatten key cs []
  simp only [List.flatMap_nil, List.nil_append] at hf
  refine ⟨hn, hm, hf, hs, ?_⟩
  intro c hc
  have hcf : c ∈ (groupByContinent key cs).flatMap (fun g => g.countries) :=
    hf.mem_iff.mpr hc
  rcases List.mem_flatMap.mp hcf with ⟨g, hg, hcg⟩
  refine ⟨g, hg, hcg, ?_⟩
  intro g' hg' hcg'
  have he : g'.name = g.name := by
    rw [← hm g hg c hcg, ← hm g' hg' c hcg']
  exact List.inj_on_of_nodup_map hn hg' hg he

/-- C5: the continent grouping is a sum-preserving partition, both for the
grouping inside `getGlobalStats` (key: `countryContinents[code]`, absent
codes mapped to "Unknown") and for `getDataByContinent` of the legacy
variant (key: its own table on `iso2`): every input country lands in exactly
one continent's `countries` list, the flattened groups are a permutation of
the input, group names are distinct, and each continent's `totalArticles` is
the sum of its members' `value` fields. -/
theorem continentGroupingPartition :
    ∀ (cs : List CountryData),
      GroupingOk continentOfCode cs (getGlobalStatsContinents cs) ∧
      GroupingOk continentOfIso2 cs (getDataByContinentGroups cs) ∧
      (∀ c : CountryData, countryContinents.lookup c.code = none →
        continentOfCode c = "Unknown") := by
  intro cs
  refine ⟨groupingOk_of continentOfCode cs, groupingOk_of continentOfIso2 cs, ?_⟩
  intro c h
  simp [continentOfCode, h]

/-- Witness for C5 at a concrete input: a known country ("US") and a country
with an unmapped code land in exactly one group each, with correct sums. -/
theorem continentGroupingPartitionWitness :
    (∃ g, g ∈ getGlobalStatsContinents
        [⟨"US", "United States", 5, "US", "US", 0⟩,
         ⟨"XX", "Nowhere", 2, "XX", "XX", 0⟩] ∧
      (⟨"XX", "Nowhere", 2, "XX", "XX", 0⟩ : CountryData) ∈ g.countries ∧
      ∀ g', g' ∈ getGlobalStatsContinents
          [⟨"US", "United States", 5, "US", "US", 0⟩,
           ⟨"XX", "Nowhere", 2, "XX", "XX", 0⟩] →
        (⟨"XX", "Nowhere", 2, "XX", "XX", 0⟩ : CountryData) ∈ g'.countries →
          g' = g) ∧
    continentOfCode ⟨"XX", "Nowhere", 2, "XX", "XX", 0⟩ = "Unknown" := by
  have h := continentGroupingPartition
    [⟨"US", "United States", 5, "US", "US", 0⟩,
     ⟨"XX", "Nowhere", 2, "XX", "XX", 0⟩]
  exact ⟨h.1.2.2.2.2 ⟨"XX", "Nowhere", 2, "XX", "XX", 0⟩ (by simp),
    h.2.2 ⟨"XX", "Nowhere", 2, "XX", "XX", 0⟩ (by decide)⟩
